import Mathlib

/-!
Verification development for the OhmicCAD circuit solver
(`src/services/Solver.ts`, class `CircuitSolver`).

The solver is embedded shallowly.  JavaScript numbers are modelled by
`JSNum`: exact rationals for finite values plus the three symbolic
values `inf`, `ninf` and `nan`, with the IEEE-754 propagation rules for
the symbolic values (finite arithmetic is idealised as exact, a single
zero is used, and overflow of finite values is not modelled).
`Math.sin` and `Math.sqrt` are not rational functions, so `solve` takes
a `MathOracle` argument: `oracle.sin x` stands for `Math.sin (2 * π * x)`
and `oracle.sqrt x` for `Math.sqrt x`; every theorem below is quantified
over the oracle.  In-place mutation of the `components` / `wires`
arrays is modelled by returning the post-call arrays.  The string port
keys `id ++ "_" ++ toString p` of the source are in bijection with the
pairs `(id, p)` used here (the suffixes `_0` / `_1` make the encoding
injective), so port keys are modelled as pairs.
-/

inductive JSNum where
  | fin (q : ℚ)
  | inf
  | ninf
  | nan
deriving DecidableEq, Repr

namespace JSNum

/-- Models `Number.isNaN` / the global `isNaN` on numbers. -/
def isNaN : JSNum → Bool
  | nan => true
  | _ => false

/-- Models finiteness (`Number.isFinite`): true exactly on finite values. -/
def isFinite : JSNum → Bool
  | fin _ => true
  | _ => false

/-- IEEE addition (`+`), exact on finite values. -/
def add : JSNum → JSNum → JSNum
  | nan, _ => nan
  | _, nan => nan
  | inf, ninf => nan
  | ninf, inf => nan
  | inf, _ => inf
  | _, inf => inf
  | ninf, _ => ninf
  | _, ninf => ninf
  | fin a, fin b => fin (a + b)

/-- IEEE negation (`-x`). -/
def neg : JSNum → JSNum
  | nan => nan
  | inf => ninf
  | ninf => inf
  | fin a => fin (-a)

/-- IEEE subtraction: `a - b = a + (-b)` exactly. -/
def sub (a b : JSNum) : JSNum := add a (neg b)

/-- IEEE multiplication (`*`): `0 * ±∞ = NaN`, signs as usual. -/
def mul : JSNum → JSNum → JSNum
  | nan, _ => nan
  | _, nan => nan
  | inf, inf => inf
  | inf, ninf => ninf
  | ninf, inf => ninf
  | ninf, ninf => inf
  | inf, fin b => if b = 0 then nan else if 0 < b then inf else ninf
  | ninf, fin b => if b = 0 then nan else if 0 < b then ninf else inf
  | fin a, inf => if a = 0 then nan else if 0 < a then inf else ninf
  | fin a, ninf => if a = 0 then nan else if 0 < a then ninf else inf
  | fin a, fin b => fin (a * b)

/-- IEEE division (`/`): `x / 0` with `x ≠ 0` gives a signed infinity
(the single model zero counts as `+0`), `0 / 0 = ∞ / ∞ = NaN`,
`finite / ∞ = 0`. -/
def div : JSNum → JSNum → JSNum
  | nan, _ => nan
  | _, nan => nan
  | inf, inf => nan
  | inf, ninf => nan
  | ninf, inf => nan
  | ninf, ninf => nan
  | inf, fin b => if 0 ≤ b then inf else ninf
  | ninf, fin b => if 0 ≤ b then ninf else inf
  | fin _, inf => fin 0
  | fin _, ninf => fin 0
  | fin a, fin b =>
      if b = 0 then (if a = 0 then nan else if 0 < a then inf else ninf)
      else fin (a / b)

/-- Models `Math.abs`. -/
def abs : JSNum → JSNum
  | nan => nan
  | inf => inf
  | ninf => inf
  | fin a => fin |a|

/-- IEEE strict `<`: any comparison involving NaN is false. -/
def lt : JSNum → JSNum → Bool
  | nan, _ => false
  | _, nan => false
  | ninf, ninf => false
  | ninf, _ => true
  | _, ninf => false
  | inf, _ => false
  | _, inf => true
  | fin a, fin b => decide (a < b)

/-- IEEE strict `>`. -/
def gt (a b : JSNum) : Bool := lt b a

/-- Models `Math.max` on two arguments: NaN if either argument is NaN. -/
def maxJS (a b : JSNum) : JSNum :=
  if isNaN a || isNaN b then nan else if lt a b then b else a

end JSNum

/-- Abstract stand-ins for the transcendental library functions used by
the solver: `sin x` models `Math.sin (2 * Math.PI * x)` and `sqrt x`
models `Math.sqrt x`.  All theorems are quantified over the oracle. -/
structure MathOracle where
  sin : JSNum → JSNum
  sqrt : JSNum → JSNum

/-- Mirrors the `ComponentType` enum of `types.ts`. -/
inductive ComponentType where
  | battery
  | switch
  | pushbutton
  | resistor
  | capacitor
  | capacitorPol
  | inductor
  | acSource
  | diode
  | led
  | lamp
  | junction
deriving DecidableEq, Repr

/-- Mirrors the `diodeType` union `'rectifier' | 'zener' | 'schottky'`. -/
inductive DiodeType where
  | rectifier
  | zener
  | schottky
deriving DecidableEq, Repr

/-- The fields of `ComponentProps` read by the solver; optional numeric
fields are `Option JSNum` (`none` models `undefined`). -/
structure ComponentProps where
  voltage : Option JSNum := none
  voltageDrop : Option JSNum := none
  zenerVoltage : Option JSNum := none
  diodeType : Option DiodeType := none
  resistance : Option JSNum := none
  capacitance : Option JSNum := none
  capacitanceUnit : Option String := none
  inductance : Option JSNum := none
  frequency : Option JSNum := none
  amplitude : Option JSNum := none
  closed : Option Bool := none
deriving DecidableEq, Repr

/-- The fields of `SimData` read or written by the solver. -/
structure SimData where
  voltage : JSNum := .fin 0
  current : JSNum := .fin 0
  power : JSNum := .fin 0
  resistance : Option JSNum := none
  storedVoltage : Option JSNum := none
  storedCurrent : Option JSNum := none
  vPk : Option JSNum := none
  vRms : Option JSNum := none
  iPk : Option JSNum := none
  iRms : Option JSNum := none
  vSqSum : Option JSNum := none
  iSqSum : Option JSNum := none
deriving DecidableEq, Repr

/-- The fields of `ComponentModel` used by the solver (geometry and
editor state are irrelevant to `CircuitSolver.solve` and omitted). -/
structure ComponentModel where
  id : String
  type : ComponentType
  props : ComponentProps
  simData : SimData
deriving DecidableEq, Repr

/-- The fields of `WireModel` used by the solver. -/
structure WireModel where
  compAId : String
  portAIndex : Nat
  compBId : String
  portBIndex : Nat
  simData : SimData
deriving DecidableEq, Repr

/-- JavaScript truthiness default `x || d` for an optional number:
`undefined`, `0` and `NaN` are falsy. -/
def orDefault (o : Option JSNum) (d : JSNum) : JSNum :=
  match o with
  | none => d
  | some x => if x = .fin 0 || x.isNaN then d else x

/-- JavaScript truthiness default for an optional string (`''` is falsy). -/
def strOrDefault (o : Option String) (d : String) : String :=
  match o with
  | none => d
  | some s => if s = "" then d else s

/-- Truthiness of the optional boolean `c.props.closed`. -/
def closedTruthy (o : Option Bool) : Bool := o.getD false

/-- A dense matrix is a list of rows. -/
abbrev Mat := List (List JSNum)

/-- A dense vector. -/
abbrev Vec := List JSNum

/-- Reads entry `(i, j)`; out-of-range reads return `0` (they do not
occur on the in-range indices the solver uses). -/
def getE (m : Mat) (i j : Nat) : JSNum := ((m.getD i []).getD j (.fin 0))

/-- Writes entry `(i, j)` (a no-op out of range, matching `List.set`). -/
def setE (m : Mat) (i j : Nat) (x : JSNum) : Mat :=
  m.set i ((m.getD i []).set j x)

/-- Reads `v[i]` with default `0`. -/
def getV (v : Vec) (i : Nat) : JSNum := v.getD i (.fin 0)

namespace CircuitSolver

/-- Source constant `G_MIN = 1e-12`. -/
def G_MIN : JSNum := .fin (1 / 10 ^ 12)

/-- Source constant `R_CLOSED_SWITCH = 0.001`. -/
def R_CLOSED_SWITCH : JSNum := .fin (1 / 1000)

/-- Source constant `R_OPEN_SWITCH = 1e12`. -/
def R_OPEN_SWITCH : JSNum := .fin (10 ^ 12)

/-- Source constant `R_CAPACITOR_DC = 1e12` (declared but unused). -/
def R_CAPACITOR_DC : JSNum := .fin (10 ^ 12)

/-- Source constant `MAX_ITERATIONS = 50`. -/
def MAX_ITERATIONS : Nat := 50

/-- Pivot threshold `1e-20` of `solveLinearMatrix`. -/
def PIVOT_EPS : JSNum := .fin (1 / 10 ^ 20)

/-- Pivot search of `solveLinearMatrix`: starting from `(|M[i][i]|, i)`,
scan rows `k = i+1 .. n-1` keeping the row with strictly larger
`|M[k][i]|`. -/
def findPivot (M : Mat) (i n : Nat) : JSNum × Nat :=
  (List.range (n - (i + 1))).foldl
    (fun acc d =>
      let k := i + 1 + d
      if (getE M k i).abs.gt acc.1 then ((getE M k i).abs, k) else acc)
    ((getE M i i).abs, i)

/-- Row swap `[M[i], M[maxRow]] = [M[maxRow], M[i]]` (and the same on
the right-hand side), guarded by `maxRow ≠ i` as in the source. -/
def swapRows (M : Mat) (x : Vec) (i maxRow : Nat) : Mat × Vec :=
  if maxRow ≠ i then
    (((M.set i (M.getD maxRow [])).set maxRow (M.getD i [])),
      ((x.set i (x.getD maxRow (.fin 0))).set maxRow (x.getD i (.fin 0))))
  else (M, x)

/-- Elimination of row `k` against pivot row `i`:
`factor = -M[k][i] / M[i][i]`, `M[k][i] = 0`, then
`M[k][j] += factor * M[i][j]` for `j = i+1 .. n-1` and
`x[k] += factor * x[i]`. -/
def elimRow (i n k : Nat) (Mx : Mat × Vec) : Mat × Vec :=
  let M := Mx.1
  let x := Mx.2
  let factor := (JSNum.div (getE M k i) (getE M i i)).neg
  let M := setE M k i (.fin 0)
  let M := (List.range (n - (i + 1))).foldl
    (fun M d =>
      let j := i + 1 + d
      setE M k j (JSNum.add (getE M k j) (JSNum.mul factor (getE M i j)))) M
  (M, x.set k (JSNum.add (getV x k) (JSNum.mul factor (getV x i))))

/-- One forward-elimination step of `solveLinearMatrix` for column `i`:
find the pivot, swap, and, unless the pivot magnitude is below `1e-20`
(in which case the column is skipped), eliminate all lower rows. -/
def forwardStep (n : Nat) (Mx : Mat × Vec) (i : Nat) : Mat × Vec :=
  let maxRow := (findPivot Mx.1 i n).2
  let Mx := swapRows Mx.1 Mx.2 i maxRow
  if (getE Mx.1 i i).abs.lt PIVOT_EPS then Mx
  else
    (List.range (n - (i + 1))).foldl
      (fun Mx d => elimRow i n (i + 1 + d) Mx) Mx

/-- Back-substitution sum `Σ_{j=i+1}^{n-1} M[i][j] * res[j]`, accumulated
left to right as in the source. -/
def backSum (M : Mat) (res : Vec) (i n : Nat) : JSNum :=
  (List.range (n - (i + 1))).foldl
    (fun s d =>
      let j := i + 1 + d
      JSNum.add s (JSNum.mul (getE M i j) (getV res j)))
    (.fin 0)

/-- One back-substitution step for row `i`: a sub-threshold pivot leaves
the free variable at `0`, otherwise `res[i] = (x[i] - sum) / M[i][i]`. -/
def backStep (M : Mat) (x : Vec) (n : Nat) (res : Vec) (i : Nat) : Vec :=
  if (getE M i i).abs.lt PIVOT_EPS then res.set i (.fin 0)
  else res.set i (JSNum.div (JSNum.sub (getV x i) (backSum M res i n)) (getE M i i))

/-- `CircuitSolver.solveLinearMatrix`: Gaussian elimination with partial
pivoting and pivot threshold `1e-20`, then back-substitution into a
vector initialised to zeros; traversal orders follow the source. -/
def solveLinearMatrix (A : Mat) (B : Vec) : Vec :=
  let n := B.length
  let Mx := (List.range n).foldl (forwardStep n) (A, B)
  ((List.range n).reverse).foldl (backStep Mx.1 Mx.2 n) (List.replicate n (.fin 0))

end CircuitSolver

/-- Port keys `(componentId, portIndex)`, modelling the source's string
keys `id ++ "_" ++ toString portIndex` (injective for ports 0/1). -/
abbrev PortKey := String × Nat

namespace CircuitSolver

/-- The filter predicate producing `voltageSources`:
`c.type === Battery || c.type === ACSource`. -/
def isVoltageSource (c : ComponentModel) : Bool :=
  decide (c.type = ComponentType.battery) || decide (c.type = ComponentType.acSource)

/-- The `allPorts` insertion-ordered set: each component adds
`(id, 0)`, and `(id, 1)` unless it is a Junction. -/
def portList (components : List ComponentModel) : List PortKey :=
  components.foldl
    (fun acc c =>
      let acc := if (c.id, 0) ∈ acc then acc else acc ++ [(c.id, 0)]
      if c.type = ComponentType.junction then acc
      else if (c.id, 1) ∈ acc then acc else acc ++ [(c.id, 1)])
    []

/-- `pMap.get`: the index of a port key in `pList` (`none` models
`undefined` for a key that is not present). -/
def pIndex (pl : List PortKey) (k : PortKey) : Option Nat :=
  pl.findIdx? (fun p => decide (p = k))

/-- `stampR`: conductance `g = 1 / Math.max(1e-14, r)` added
symmetrically between nodes `u` and `v`. -/
def stampR (u v : Nat) (r : JSNum) (A : Mat) : Mat :=
  let g := JSNum.div (.fin 1) (JSNum.maxJS (.fin (1 / 10 ^ 14)) r)
  let A := setE A u u (JSNum.add (getE A u u) g)
  let A := setE A v v (JSNum.add (getE A v v) g)
  let A := setE A u v (JSNum.sub (getE A u v) g)
  setE A v u (JSNum.sub (getE A v u) g)

/-- `stampG`: a raw conductance added symmetrically. -/
def stampG (u v : Nat) (g : JSNum) (A : Mat) : Mat :=
  let A := setE A u u (JSNum.add (getE A u u) g)
  let A := setE A v v (JSNum.add (getE A v v) g)
  let A := setE A u v (JSNum.sub (getE A u v) g)
  setE A v u (JSNum.sub (getE A v u) g)

/-- `stampVoltageSource`: constraint row `idx` (`V_u - V_v = voltage`)
and the transposed column entries, written by assignment. -/
def stampVoltageSource (u v : Nat) (voltage : JSNum) (idx : Nat) (A : Mat) (B : Vec) :
    Mat × Vec :=
  let A := setE A idx u (.fin 1)
  let A := setE A idx v (.fin (-1))
  let B := B.set idx voltage
  let A := setE A u idx (.fin 1)
  let A := setE A v idx (.fin (-1))
  (A, B)

/-- The per-iteration `wires.forEach` pass: every wire whose two
endpoint ports both resolve is stamped as a `1e-4` ohm resistor and its
`simData.resistance` is set to `1e-4`; unresolved wires are skipped. -/
def stampWires (pl : List PortKey) (A : Mat) (wires : List WireModel) :
    Mat × List WireModel :=
  wires.foldl
    (fun acc w =>
      match pIndex pl (w.compAId, w.portAIndex), pIndex pl (w.compBId, w.portBIndex) with
      | some u, some v =>
          (stampR u v (.fin (1 / 10 ^ 4)) acc.1,
           acc.2 ++ [{ w with simData := { w.simData with resistance := some (.fin (1 / 10 ^ 4)) } }])
      | _, _ => (acc.1, acc.2 ++ [w]))
    (A, [])

/-- The capacitance multiplier selected by `capacitanceUnit`
(default `µF`). -/
def capMult (unit : String) : JSNum :=
  if unit = "mF" then .fin (1 / 10 ^ 3)
  else if unit = "nF" then .fin (1 / 10 ^ 9)
  else if unit = "pF" then .fin (1 / 10 ^ 12)
  else .fin (1 / 10 ^ 6)

/-- The forward threshold `V_fwd` of a diode or LED: `0.7`, `0.3` for a
schottky, and `voltageDrop || 2.0` for an LED (the LED assignment comes
last in the source and wins). -/
def diodeVfwd (c : ComponentModel) : JSNum :=
  let vf : JSNum := if c.props.diodeType = some DiodeType.schottky then .fin (3 / 10) else .fin (7 / 10)
  if c.type = ComponentType.led then orDefault c.props.voltageDrop (.fin 2) else vf

/-- The `components.forEach` stamp of one component into `(A, B)`
during iteration `iter`, with `sol` the solution of the previous
iteration (the all-zero initial vector on iteration 0). -/
def stampComponent (vs : List ComponentModel) (pl : List PortKey) (dt simTime : JSNum)
    (oracle : MathOracle) (iter : Nat) (sol : Vec) (AB : Mat × Vec) (c : ComponentModel) :
    Mat × Vec :=
  if c.type = ComponentType.junction then AB else
  let A := AB.1
  let B := AB.2
  let u := (pIndex pl (c.id, 0)).getD 0
  let v := (pIndex pl (c.id, 1)).getD 0
  match c.type with
  | ComponentType.resistor =>
      (stampR u v (orDefault c.props.resistance (.fin 1000)) A, B)
  | ComponentType.switch | ComponentType.pushbutton =>
      (stampR u v (if closedTruthy c.props.closed then R_CLOSED_SWITCH else R_OPEN_SWITCH) A, B)
  | ComponentType.capacitor | ComponentType.capacitorPol =>
      let unit := strOrDefault c.props.capacitanceUnit "µF"
      let C := JSNum.mul (orDefault c.props.capacitance (.fin 10)) (capMult unit)
      let G := JSNum.div C dt
      let vPrev := orDefault c.simData.storedVoltage (.fin 0)
      let I_eq := JSNum.mul G.neg vPrev
      let A := stampG u v G A
      let A := stampG u v (.fin (1 / 10 ^ 12)) A
      let B := B.set u (JSNum.sub (getV B u) I_eq)
      let B := B.set v (JSNum.add (getV B v) I_eq)
      (A, B)
  | ComponentType.diode | ComponentType.led =>
      let V_fwd := diodeVfwd c
      let V_zener := orDefault c.props.zenerVoltage (.fin (28 / 5))
      let R_on : JSNum := .fin (1 / 10)
      let G_off : JSNum := .fin (1 / 10 ^ 12)
      let Vd := if iter > 0 then JSNum.sub (getV sol u) (getV sol v) else .fin 0
      if Vd.gt V_fwd then
        let G := JSNum.div (.fin 1) R_on
        let I_eq := JSNum.div V_fwd.neg R_on
        let A := stampG u v G A
        let B := B.set u (JSNum.sub (getV B u) I_eq)
        let B := B.set v (JSNum.add (getV B v) I_eq)
        (A, B)
      else if c.props.diodeType = some DiodeType.zener && Vd.lt V_zener.neg then
        let G := JSNum.div (.fin 1) R_on
        let I_eq := JSNum.div V_zener R_on
        let A := stampG u v G A
        let B := B.set u (JSNum.sub (getV B u) I_eq)
        let B := B.set v (JSNum.add (getV B v) I_eq)
        (A, B)
      else
        (stampG u v G_off A, B)
  | ComponentType.lamp =>
      (stampR u v (.fin 100) A, B)
  | ComponentType.inductor =>
      let L := orDefault c.props.inductance (.fin (1 / 10))
      let Rs : JSNum := .fin (1 / 10)
      let safeDt := JSNum.maxJS (.fin (1 / 10 ^ 6)) dt
      let G_eq := JSNum.div (.fin 1) (JSNum.add Rs (JSNum.div L safeDt))
      let iPrev := orDefault c.simData.storedCurrent (.fin 0)
      let I_eq := JSNum.mul (JSNum.mul iPrev (JSNum.div L safeDt)) G_eq
      let A := stampG u v G_eq A
      let B := B.set u (JSNum.sub (getV B u) I_eq)
      let B := B.set v (JSNum.add (getV B v) I_eq)
      (A, B)
  | ComponentType.battery =>
      let vsIdx := (vs.findIdx? (fun b => decide (b.id = c.id))).getD 0
      let idx := pl.length + vsIdx
      stampVoltageSource v u (orDefault c.props.voltage (.fin 9)) idx A B
  | ComponentType.acSource =>
      let vsIdx := (vs.findIdx? (fun b => decide (b.id = c.id))).getD 0
      let idx := pl.length + vsIdx
      let amp := orDefault c.props.amplitude (.fin 10)
      let freq := orDefault c.props.frequency (.fin 60)
      let val := JSNum.mul amp (oracle.sin (JSNum.mul freq simTime))
      stampVoltageSource v u val idx A B
  | ComponentType.junction => AB

/-- The ground-reference normalization of lines 184-186: `G_MIN` is
added to the diagonal entries of the first `portCount` rows only (the
loop bound is `pList.length`), then row 0 is overwritten with the
identity row and `B[0]` with `0`. -/
def groundNormalize (portCount : Nat) (A : Mat) (B : Vec) : Mat × Vec :=
  let A := (List.range portCount).foldl
    (fun A i => setE A i i (JSNum.add (getE A i i) G_MIN)) A
  let row0 := ((A.getD 0 []).map (fun _ => JSNum.fin 0)).set 0 (.fin 1)
  (A.set 0 row0, B.set 0 (.fin 0))

/-- One full stamping pass (iteration body before the linear solve):
fresh zero `A`/`B`, wires, then components in declared order, then
ground normalization. -/
def assembleIteration (components : List ComponentModel) (vs : List ComponentModel)
    (pl : List PortKey) (dt simTime : JSNum) (oracle : MathOracle) (iter : Nat)
    (sol : Vec) (wires : List WireModel) : Mat × Vec × List WireModel :=
  let size := pl.length + vs.length
  let A : Mat := List.replicate size (List.replicate size (.fin 0))
  let B : Vec := List.replicate size (.fin 0)
  let Aw := stampWires pl A wires
  let AB := components.foldl (stampComponent vs pl dt simTime oracle iter sol) (Aw.1, B)
  let ABn := groundNormalize pl.length AB.1 AB.2
  (ABn.1, ABn.2, Aw.2)

/-- The iteration loop: each pass assembles and solves; if the solved
vector contains a NaN the loop aborts (`return` on line 192), otherwise
the result feeds the next iteration.  `fuel` counts remaining
iterations, `iter` is the 0-based iteration index. -/
def solveLoop (components : List ComponentModel) (vs : List ComponentModel)
    (pl : List PortKey) (dt simTime : JSNum) (oracle : MathOracle) :
    Nat → Nat → Vec → List WireModel → Option Vec × List WireModel
  | 0, _, sol, wires => (some sol, wires)
  | fuel + 1, iter, sol, wires =>
      let ABw := assembleIteration components vs pl dt simTime oracle iter sol wires
      let sol' := solveLinearMatrix ABw.1 ABw.2.1
      if sol'.any JSNum.isNaN then (none, ABw.2.2)
      else solveLoop components vs pl dt simTime oracle fuel (iter + 1) sol' ABw.2.2

end CircuitSolver

namespace CircuitSolver

/-- The analytic branch current `newCurrent` of the state updater
(lines 203-262), computed from the component's constitutive law at the
solved branch voltage `newVoltage`. -/
def componentNewCurrent (vs : List ComponentModel) (plLen : Nat) (dt : JSNum)
    (sol : Vec) (c : ComponentModel) (newVoltage : JSNum) : JSNum :=
  match c.type with
  | ComponentType.battery | ComponentType.acSource =>
      let vsIdx := (vs.findIdx? (fun b => decide (b.id = c.id))).getD 0
      (getV sol (plLen + vsIdx)).neg
  | ComponentType.capacitor | ComponentType.capacitorPol =>
      let unit := strOrDefault c.props.capacitanceUnit "µF"
      let C := JSNum.mul (orDefault c.props.capacitance (.fin 10)) (capMult unit)
      let G := JSNum.div C dt
      let vPrev := orDefault c.simData.storedVoltage (.fin 0)
      JSNum.mul G (JSNum.sub newVoltage vPrev)
  | ComponentType.inductor =>
      let L := orDefault c.props.inductance (.fin (1 / 10))
      let Rs : JSNum := .fin (1 / 10)
      let safeDt := JSNum.maxJS (.fin (1 / 10 ^ 6)) dt
      let G_eq := JSNum.div (.fin 1) (JSNum.add Rs (JSNum.div L safeDt))
      let iPrev := orDefault c.simData.storedCurrent (.fin 0)
      let I_eq := JSNum.mul (JSNum.mul iPrev (JSNum.div L safeDt)) G_eq
      JSNum.add (JSNum.mul G_eq newVoltage) I_eq
  | ComponentType.diode | ComponentType.led =>
      let V_fwd := diodeVfwd c
      let V_zener := orDefault c.props.zenerVoltage (.fin (28 / 5))
      let R_on : JSNum := .fin (1 / 10)
      let G_off : JSNum := .fin (1 / 10 ^ 12)
      if newVoltage.gt V_fwd then
        JSNum.div (JSNum.sub newVoltage V_fwd) R_on
      else if c.props.diodeType = some DiodeType.zener && newVoltage.lt V_zener.neg then
        JSNum.div (JSNum.add newVoltage V_zener) R_on
      else
        JSNum.mul newVoltage G_off
  | ComponentType.lamp =>
      JSNum.div newVoltage (.fin 100)
  | ComponentType.switch | ComponentType.pushbutton =>
      JSNum.div newVoltage (if closedTruthy c.props.closed then R_CLOSED_SWITCH else R_OPEN_SWITCH)
  | ComponentType.resistor =>
      JSNum.div newVoltage (JSNum.maxJS (orDefault c.props.resistance (.fin 1000)) (.fin (1 / 10 ^ 9)))
  | ComponentType.junction =>
      JSNum.div newVoltage (JSNum.maxJS (.fin (1 / 10 ^ 9)) (.fin (1 / 10 ^ 9)))

/-- The state-update pass for one component (lines 197-287): Junctions
are skipped; otherwise the branch voltage and current are derived from
`sol`, reactive state is persisted, the displayed current is smoothed
with `alpha = 0.5`, and power, peaks and RMS accumulators are updated
in source order. -/
def updateComponent (vs : List ComponentModel) (pl : List PortKey) (dt : JSNum)
    (oracle : MathOracle) (sol : Vec) (c : ComponentModel) : ComponentModel :=
  if c.type = ComponentType.junction then c else
  let u := (pIndex pl (c.id, 0)).getD 0
  let v := (pIndex pl (c.id, 1)).getD 0
  let newVoltage := JSNum.sub (getV sol u) (getV sol v)
  let newCurrent := componentNewCurrent vs pl.length dt sol c newVoltage
  let sd := c.simData
  let sd :=
    match c.type with
    | ComponentType.capacitor | ComponentType.capacitorPol =>
        { sd with storedVoltage := some newVoltage, voltage := newVoltage.abs }
    | ComponentType.inductor =>
        { sd with storedCurrent := some newCurrent, voltage := newVoltage.abs }
    | _ => sd
  let alpha : JSNum := .fin (1 / 2)
  let sd := { sd with
    current := JSNum.add (JSNum.mul sd.current (JSNum.sub (.fin 1) alpha)) (JSNum.mul newCurrent alpha) }
  let sd :=
    if c.type ≠ ComponentType.capacitor ∧ c.type ≠ ComponentType.capacitorPol ∧
        c.type ≠ ComponentType.inductor then
      { sd with voltage := newVoltage.abs }
    else sd
  let sd := { sd with power := JSNum.mul sd.voltage sd.current.abs }
  let decay : JSNum := .fin (999 / 1000)
  let rmsAlpha : JSNum := .fin (1 / 200)
  let sd := { sd with vPk := some (JSNum.maxJS sd.voltage.abs (JSNum.mul (orDefault sd.vPk (.fin 0)) decay)) }
  let sd := { sd with iPk := some (JSNum.maxJS sd.current.abs (JSNum.mul (orDefault sd.iPk (.fin 0)) decay)) }
  let vSq := JSNum.mul sd.voltage sd.voltage
  let sd := { sd with vSqSum := some (JSNum.add (JSNum.mul (orDefault sd.vSqSum (.fin 0)) (JSNum.sub (.fin 1) rmsAlpha)) (JSNum.mul vSq rmsAlpha)) }
  let sd := { sd with vRms := some (oracle.sqrt (sd.vSqSum.getD (.fin 0))) }
  let iSq := JSNum.mul sd.current sd.current
  let sd := { sd with iSqSum := some (JSNum.add (JSNum.mul (orDefault sd.iSqSum (.fin 0)) (JSNum.sub (.fin 1) rmsAlpha)) (JSNum.mul iSq rmsAlpha)) }
  let sd := { sd with iRms := some (oracle.sqrt (sd.iSqSum.getD (.fin 0))) }
  { c with simData := sd }

/-- The state-update pass for one wire (lines 289-302): skipped when an
endpoint does not resolve; otherwise the displayed current is smoothed
with `alpha = 0.2` against `(sol[u] - sol[v]) / (resistance || 1e-4)`. -/
def updateWire (pl : List PortKey) (sol : Vec) (w : WireModel) : WireModel :=
  match pIndex pl (w.compAId, w.portAIndex), pIndex pl (w.compBId, w.portBIndex) with
  | some u, some v =>
      let newVoltage := (JSNum.sub (getV sol u) (getV sol v)).abs
      let newCurrent := JSNum.div (JSNum.sub (getV sol u) (getV sol v))
        (orDefault w.simData.resistance (.fin (1 / 10 ^ 4)))
      let alpha : JSNum := .fin (1 / 5)
      let sd := w.simData
      let sd := { sd with
        current := JSNum.add (JSNum.mul sd.current (JSNum.sub (.fin 1) alpha)) (JSNum.mul newCurrent alpha) }
      let sd := { sd with voltage := newVoltage }
      let sd := { sd with power := (JSNum.mul sd.voltage sd.current).abs }
      { w with simData := sd }
  | _, _ => w

/-- `CircuitSolver.solve`: the post-call contents of the `components`
and `wires` arrays.  On the divergence path (`return` on line 192) the
components are untouched and the wires carry only the per-iteration
`simData.resistance` marks; otherwise all telemetry is updated from the
last iteration's solution. -/
def solve (components : List ComponentModel) (wires : List WireModel)
    (dt simTime : JSNum) (oracle : MathOracle) : List ComponentModel × List WireModel :=
  let vs := components.filter isVoltageSource
  let pl := portList components
  let size := pl.length + vs.length
  let sol0 : Vec := List.replicate size (.fin 0)
  match solveLoop components vs pl dt simTime oracle MAX_ITERATIONS 0 sol0 wires with
  | (none, wires') => (components, wires')
  | (some sol, wires') =>
      (components.map (updateComponent vs pl dt oracle sol),
       wires'.map (updateWire pl sol))

/-- The caller-visible return value of `CircuitSolver.solve`: the
JavaScript function has no return type and both exits (the implicit
fall-through and the `return;` of line 192) produce `undefined`,
modelled by `Unit`. -/
def solveCallResult (_components : List ComponentModel) (_wires : List WireModel)
    (_dt _simTime : JSNum) (_oracle : MathOracle) : Unit := ()

/-- Whether a call diverges: the iteration loop aborts on a NaN. -/
def solveDiverges (components : List ComponentModel) (wires : List WireModel)
    (dt simTime : JSNum) (oracle : MathOracle) : Bool :=
  let vs := components.filter isVoltageSource
  let pl := portList components
  let size := pl.length + vs.length
  let sol0 : Vec := List.replicate size (.fin 0)
  (solveLoop components vs pl dt simTime oracle MAX_ITERATIONS 0 sol0 wires).1.isNone

/-- The abort-free iteration reference: runs the stamp-and-solve body a
fixed number of times with no divergence check and no early exit. -/
def pureIter (components : List ComponentModel) (vs : List ComponentModel)
    (pl : List PortKey) (dt simTime : JSNum) (oracle : MathOracle) :
    Nat → Nat → Vec → List WireModel → Vec × List WireModel
  | 0, _, sol, wires => (sol, wires)
  | fuel + 1, iter, sol, wires =>
      let ABw := assembleIteration components vs pl dt simTime oracle iter sol wires
      pureIter components vs pl dt simTime oracle fuel (iter + 1)
        (solveLinearMatrix ABw.1 ABw.2.1) ABw.2.2

end CircuitSolver

/-! Basic list-access lemmas used throughout. -/

theorem getV_set_self (v : Vec) (i : Nat) (x : JSNum) (h : i < v.length) :
    getV (v.set i x) i = x := by
  simp [getV, List.getD, List.getElem?_set_self, h]

theorem getV_set_ne (v : Vec) (i j : Nat) (x : JSNum) (h : i ≠ j) :
    getV (v.set i x) j = getV v j := by
  simp [getV, List.getD, List.getElem?_set_ne h]

namespace CircuitSolver

/-! Length preservation through back-substitution. -/

theorem backStep_length (M : Mat) (x : Vec) (n : Nat) (res : Vec) (i : Nat) :
    (backStep M x n res i).length = res.length := by
  unfold backStep
  split <;> simp [List.length_set]

theorem foldl_backStep_length (M : Mat) (x : Vec) (n : Nat) (l : List Nat) (res : Vec) :
    (l.foldl (backStep M x n) res).length = res.length := by
  induction l generalizing res with
  | nil => rfl
  | cons j l ih => simp [List.foldl_cons, ih, backStep_length]

/-- The forward pass of `solveLinearMatrix` (pivot / swap / eliminate
over all columns), exposed so that theorems can talk about the final
pivots. -/
def forwardPass (A : Mat) (B : Vec) : Mat × Vec :=
  (List.range B.length).foldl (forwardStep B.length) (A, B)

theorem solveLinearMatrix_eq_backsub (A : Mat) (B : Vec) :
    solveLinearMatrix A B =
      ((List.range B.length).reverse).foldl
        (backStep (forwardPass A B).1 (forwardPass A B).2 B.length)
        (List.replicate B.length (.fin 0)) := rfl

theorem foldl_backStep_not_mem (M : Mat) (x : Vec) (n : Nat) (l : List Nat) (res : Vec)
    (i : Nat) (h : i ∉ l) :
    getV (l.foldl (backStep M x n) res) i = getV res i := by
  induction l generalizing res with
  | nil => rfl
  | cons j l ih =>
      simp only [List.mem_cons, not_or] at h
      rw [List.foldl_cons, ih _ h.2]
      unfold backStep
      split <;> exact getV_set_ne _ _ _ _ (fun hji => h.1 hji.symm)

theorem foldl_backStep_small_pivot (M : Mat) (x : Vec) (n : Nat) (l : List Nat) (res : Vec)
    (i : Nat) (hmem : i ∈ l) (hnd : l.Nodup) (hlen : i < res.length)
    (hsmall : (getE M i i).abs.lt PIVOT_EPS = true) :
    getV (l.foldl (backStep M x n) res) i = .fin 0 := by
  induction l generalizing res with
  | nil => cases hmem
  | cons j l ih =>
      rw [List.foldl_cons]
      rcases List.mem_cons.mp hmem with hj | hmem'
      · subst hj
        have hnotmem : i ∉ l := (List.nodup_cons.mp hnd).1
        rw [foldl_backStep_not_mem _ _ _ _ _ _ hnotmem]
        unfold backStep
        rw [if_pos hsmall]
        exact getV_set_self _ _ _ hlen
      · exact ih (backStep M x n res j) hmem' (List.nodup_cons.mp hnd).2
          (by rw [backStep_length]; exact hlen)

end CircuitSolver

attribute [local semireducible] Rat.add Rat.mul Rat.inv Rat.sub

namespace CircuitSolver

/-- C7: `solveLinearMatrix` is total for every square system: the
returned vector always has full length, and any column whose final
pivot magnitude is below the `1e-20` threshold is treated as a free
variable whose solution component is exactly `0` (no division by a
sub-threshold pivot is ever performed on it). -/
theorem solveLinearMatrix_total_free_vars (A : Mat) (B : Vec) :
    (solveLinearMatrix A B).length = B.length ∧
    ∀ i, i < B.length → (getE (forwardPass A B).1 i i).abs.lt PIVOT_EPS = true →
      getV (solveLinearMatrix A B) i = .fin 0 := by
  constructor
  · rw [solveLinearMatrix_eq_backsub, foldl_backStep_length, List.length_replicate]
  · intro i hi hsmall
    rw [solveLinearMatrix_eq_backsub]
    exact foldl_backStep_small_pivot _ _ _ _ _ i
      (by simpa using hi)
      (List.nodup_reverse.mpr (List.nodup_range _))
      (by simpa using hi)
      hsmall

/-- Witness for C7 on a concrete singular 1-by-1 system: the matrix
`[[0]]` has a sub-threshold pivot, the result still has full length and
its only component is the free-variable value `0`. -/
theorem solveLinearMatrix_total_free_vars_witness :
    (solveLinearMatrix [[JSNum.fin 0]] [JSNum.fin 1]).length = 1 ∧
    getV (solveLinearMatrix [[JSNum.fin 0]] [JSNum.fin 1]) 0 = .fin 0 :=
  ⟨(solveLinearMatrix_total_free_vars [[JSNum.fin 0]] [JSNum.fin 1]).1,
   (solveLinearMatrix_total_free_vars [[JSNum.fin 0]] [JSNum.fin 1]).2 0
     (by decide) (by decide)⟩

end CircuitSolver

namespace CircuitSolver

/-- An oracle instance used by concrete witnesses. -/
def zeroOracle : MathOracle := ⟨fun _ => .fin 0, fun _ => .fin 0⟩

/-- A lone junction: a minimal input on which the solver succeeds. -/
def junctionOnly : ComponentModel :=
  { id := "j", type := ComponentType.junction, props := {}, simData := {} }

/-- A capacitor whose persisted `storedVoltage` is `Infinity` (a JS
number reachable by overflow): stamping puts the infinity on the
right-hand side and the linear solve then produces a NaN, so the call
takes the divergence path. -/
def infCapacitor : ComponentModel :=
  { id := "c", type := ComponentType.capacitor, props := {},
    simData := { storedVoltage := some .inf } }

/-- Counterexample for C3: a diverged call and a committed call return
the identical value (`undefined`, modelled by `Unit`), so the caller
cannot tell a diverged tick from a committed tick from the call's
result. -/
theorem solve_divergence_signal_cex :
    solveDiverges [infCapacitor] [] (.fin 1) (.fin 0) zeroOracle = true ∧
    solveDiverges [junctionOnly] [] (.fin 1) (.fin 0) zeroOracle = false ∧
    solveCallResult [infCapacitor] [] (.fin 1) (.fin 0) zeroOracle =
      solveCallResult [junctionOnly] [] (.fin 1) (.fin 0) zeroOracle :=
  ⟨by decide, by decide, rfl⟩

/-- C3 (amended): when divergence is detected the call aborts without
touching the components, but its caller-visible return value is
`undefined` exactly as on success — every call returns the same value,
so divergence is signalled only by the console warning and by telemetry
being left unchanged, not by the call's result. -/
theorem solve_divergence_return_amended (components : List ComponentModel)
    (wires : List WireModel) (dt simTime : JSNum) (oracle : MathOracle)
    (h : solveDiverges components wires dt simTime oracle = true) :
    (solve components wires dt simTime oracle).1 = components ∧
    ∀ c2 w2 d2 t2 o2, solveCallResult components wires dt simTime oracle =
      solveCallResult c2 w2 d2 t2 o2 := by
  refine ⟨?_, fun _ _ _ _ _ => rfl⟩
  simp only [solveDiverges] at h
  simp only [solve]
  rcases hsl : solveLoop components (components.filter isVoltageSource)
      (portList components) dt simTime oracle MAX_ITERATIONS 0
      (List.replicate ((portList components).length +
        (components.filter isVoltageSource).length) (.fin 0)) wires with ⟨osol, w2⟩
  cases osol with
  | none => simp [hsl]
  | some s => rw [hsl] at h; simp at h

/-- Witness for the amended C3 at the concrete diverging input: the
components come back untouched. -/
theorem solve_divergence_return_amended_witness :
    (solve [infCapacitor] [] (.fin 1) (.fin 0) zeroOracle).1 = [infCapacitor] :=
  (solve_divergence_return_amended [infCapacitor] [] (.fin 1) (.fin 0) zeroOracle
    (by decide)).1

/-- Helper for C4: a loop run that returns `some` never took the abort
branch, so it computed exactly the abort-free `pureIter` reference. -/
theorem solveLoop_no_abort (components vs : List ComponentModel) (pl : List PortKey)
    (dt simTime : JSNum) (oracle : MathOracle) :
    ∀ fuel iter sol wires sol' wires',
      solveLoop components vs pl dt simTime oracle fuel iter sol wires = (some sol', wires') →
      (sol', wires') = pureIter components vs pl dt simTime oracle fuel iter sol wires := by
  intro fuel
  induction fuel with
  | zero =>
      intro iter sol wires sol' wires' h
      rw [solveLoop] at h
      rw [pureIter]
      injection h with h1 h2
      rw [← Option.some.inj h1, ← h2]
  | succ n ih =>
      intro iter sol wires sol' wires' h
      rw [solveLoop] at h
      rw [pureIter]
      split at h
      · simp at h
      · exact ih _ _ _ _ _ h

end CircuitSolver

namespace CircuitSolver

/-- C4: in the absence of divergence the driver performs exactly
`MAX_ITERATIONS = 50` stamp-and-solve iterations — there is no
convergence or tolerance test and no early exit — and the committed
telemetry is computed (by the state updater) from the 50th iteration's
solution vector, as computed by the abort-free reference `pureIter`. -/
theorem fixed_iteration_budget (components : List ComponentModel)
    (wires : List WireModel) (dt simTime : JSNum) (oracle : MathOracle)
    (h : solveDiverges components wires dt simTime oracle = false) :
    MAX_ITERATIONS = 50 ∧
    solve components wires dt simTime oracle =
      (let vs := components.filter isVoltageSource
       let pl := portList components
       let r := pureIter components vs pl dt simTime oracle 50 0
         (List.replicate (pl.length + vs.length) (.fin 0)) wires
       (components.map (updateComponent vs pl dt oracle r.1),
        r.2.map (updateWire pl r.1))) := by
  refine ⟨rfl, ?_⟩
  simp only [solveDiverges] at h
  simp only [solve]
  rcases hsl : solveLoop components (components.filter isVoltageSource)
      (portList components) dt simTime oracle MAX_ITERATIONS 0
      (List.replicate ((portList components).length +
        (components.filter isVoltageSource).length) (.fin 0)) wires with ⟨osol, w2⟩
  cases osol with
  | none => rw [hsl] at h; simp at h
  | some s =>
      have hp := solveLoop_no_abort components (components.filter isVoltageSource)
        (portList components) dt simTime oracle MAX_ITERATIONS 0
        (List.replicate ((portList components).length +
          (components.filter isVoltageSource).length) (.fin 0)) wires s w2 hsl
      simp only [hsl]
      rw [show (50 : Nat) = MAX_ITERATIONS from rfl, ← hp]

/-- Witness for C4 at the lone-junction input, which does not diverge. -/
theorem fixed_iteration_budget_witness :
    MAX_ITERATIONS = 50 ∧
    solve [junctionOnly] [] (.fin 1) (.fin 0) zeroOracle =
      (let vs := [junctionOnly].filter isVoltageSource
       let pl := portList [junctionOnly]
       let r := pureIter [junctionOnly] vs pl (.fin 1) (.fin 0) zeroOracle 50 0
         (List.replicate (pl.length + vs.length) (.fin 0)) []
       ([junctionOnly].map (updateComponent vs pl (.fin 1) zeroOracle r.1),
        r.2.map (updateWire pl r.1))) :=
  fixed_iteration_budget [junctionOnly] [] (.fin 1) (.fin 0) zeroOracle (by decide)

end CircuitSolver

namespace CircuitSolver

/-- C5: for every Diode/LED and every iteration, the stamped region is
decided from the voltage `Vd` of the previous iteration's solution
(`Vd = 0` on the first iteration, since the region test reads the
initial all-zero vector): forward conduction with on-resistance
`0.1 Ω` (stamped conductance exactly `10 S`) and offset current source
`-V_fwd / 0.1` when `Vd > V_fwd`; zener breakdown with the same
on-resistance and offset `V_zener / 0.1` when `diodeType == 'zener'`
and `Vd < -V_zener`; otherwise blocking with conductance `1e-12 S`. -/
theorem diode_stamp_regions (vs : List ComponentModel) (pl : List PortKey)
    (dt simTime : JSNum) (oracle : MathOracle) (iter : Nat) (sol : Vec)
    (AB : Mat × Vec) (c : ComponentModel)
    (h : c.type = ComponentType.diode ∨ c.type = ComponentType.led) :
    stampComponent vs pl dt simTime oracle iter sol AB c =
      (let u := (pIndex pl (c.id, 0)).getD 0
       let v := (pIndex pl (c.id, 1)).getD 0
       let Vd := if iter = 0 then JSNum.fin 0 else JSNum.sub (getV sol u) (getV sol v)
       let vz := orDefault c.props.zenerVoltage (.fin (28 / 5))
       if Vd.gt (diodeVfwd c) then
         let I_eq := JSNum.div (diodeVfwd c).neg (.fin (1 / 10))
         let B1 := AB.2.set u (JSNum.sub (getV AB.2 u) I_eq)
         (stampG u v (.fin 10) AB.1, B1.set v (JSNum.add (getV B1 v) I_eq))
       else if c.props.diodeType = some DiodeType.zener && Vd.lt vz.neg then
         let I_eq := JSNum.div vz (.fin (1 / 10))
         let B1 := AB.2.set u (JSNum.sub (getV AB.2 u) I_eq)
         (stampG u v (.fin 10) AB.1, B1.set v (JSNum.add (getV B1 v) I_eq))
       else
         (stampG u v (.fin (1 / 10 ^ 12)) AB.1, AB.2)) := by
  have hG : JSNum.div (.fin 1) (.fin (1 / 10)) = JSNum.fin 10 := by decide
  have hiter : ∀ X : JSNum, (if iter > 0 then X else .fin 0) =
      (if iter = 0 then .fin 0 else X) := by
    intro X
    cases iter <;> simp
  obtain ⟨cid, cty, cprops, csd⟩ := c
  rcases h with h | h <;> cases h <;>
    (simp only [stampComponent, hG, hiter]; rfl)

/-- Witness for C5: a forward-biased rectifier diode at iteration 1
with previous solution `[5, 0]`. -/
theorem diode_stamp_regions_witness :
    (stampComponent [] [("d", 0), ("d", 1)] (.fin 1) (.fin 0) zeroOracle 1
        [JSNum.fin 5, JSNum.fin 0]
        ([[JSNum.fin 0, JSNum.fin 0], [JSNum.fin 0, JSNum.fin 0]], [JSNum.fin 0, JSNum.fin 0])
        { id := "d", type := ComponentType.diode, props := {}, simData := {} }) =
      (let u := (pIndex [("d", 0), ("d", 1)] ("d", 0)).getD 0
       let v := (pIndex [("d", 0), ("d", 1)] ("d", 1)).getD 0
       let Vd := if (1 : Nat) = 0 then JSNum.fin 0 else
         JSNum.sub (getV [JSNum.fin 5, JSNum.fin 0] u) (getV [JSNum.fin 5, JSNum.fin 0] v)
       let vz := orDefault (none : Option JSNum) (.fin (28 / 5))
       if Vd.gt (diodeVfwd { id := "d", type := ComponentType.diode, props := {}, simData := {} }) then
         let I_eq := JSNum.div (diodeVfwd { id := "d", type := ComponentType.diode, props := {}, simData := {} }).neg (.fin (1 / 10))
         let B1 := ([JSNum.fin 0, JSNum.fin 0] : Vec).set u (JSNum.sub (getV [JSNum.fin 0, JSNum.fin 0] u) I_eq)
         (stampG u v (.fin 10) [[JSNum.fin 0, JSNum.fin 0], [JSNum.fin 0, JSNum.fin 0]],
          B1.set v (JSNum.add (getV B1 v) I_eq))
       else if ({} : ComponentProps).diodeType = some DiodeType.zener && Vd.lt vz.neg then
         let I_eq := JSNum.div vz (.fin (1 / 10))
         let B1 := ([JSNum.fin 0, JSNum.fin 0] : Vec).set u (JSNum.sub (getV [JSNum.fin 0, JSNum.fin 0] u) I_eq)
         (stampG u v (.fin 10) [[JSNum.fin 0, JSNum.fin 0], [JSNum.fin 0, JSNum.fin 0]],
          B1.set v (JSNum.add (getV B1 v) I_eq))
       else
         (stampG u v (.fin (1 / 10 ^ 12)) [[JSNum.fin 0, JSNum.fin 0], [JSNum.fin 0, JSNum.fin 0]],
          [JSNum.fin 0, JSNum.fin 0])) :=
  diode_stamp_regions [] [("d", 0), ("d", 1)] (.fin 1) (.fin 0) zeroOracle 1
    [JSNum.fin 5, JSNum.fin 0]
    ([[JSNum.fin 0, JSNum.fin 0], [JSNum.fin 0, JSNum.fin 0]], [JSNum.fin 0, JSNum.fin 0])
    { id := "d", type := ComponentType.diode, props := {}, simData := {} }
    (Or.inl rfl)

end CircuitSolver

theorem setE_length (A : Mat) (i j : Nat) (x : JSNum) : (setE A i j x).length = A.length :=
  List.length_set ..

theorem setE_oob (A : Mat) (i j : Nat) (x : JSNum) (h : A.length ≤ i) :
    setE A i j x = A :=
  List.set_eq_of_length_le h

theorem setE_getD_same (A : Mat) (i j : Nat) (x : JSNum) (hi : i < A.length) :
    (setE A i j x).getD i [] = (A.getD i []).set j x := by
  simp [setE, List.getD_eq_getElem?_getD, List.getElem?_set_self, hi]

theorem setE_getD_ne (A : Mat) (i j : Nat) (x : JSNum) (a : Nat) (h : a ≠ i) :
    (setE A i j x).getD a [] = A.getD a [] := by
  simp [setE, List.getD_eq_getElem?_getD, List.getElem?_set_ne (fun he => h he.symm)]

theorem getD_set_self' (l : List JSNum) (i : Nat) (x : JSNum) (h : i < l.length) :
    (l.set i x).getD i (.fin 0) = x := by
  simp [List.getD_eq_getElem?_getD, List.getElem?_set_self, h]

theorem getD_set_ne' (l : List JSNum) (i j : Nat) (x : JSNum) (h : i ≠ j) :
    (l.set i x).getD j (.fin 0) = l.getD j (.fin 0) := by
  simp [List.getD_eq_getElem?_getD, List.getElem?_set_ne h]

theorem getE_setE_ne_row (A : Mat) (i j : Nat) (x : JSNum) (a b : Nat) (h : a ≠ i) :
    getE (setE A i j x) a b = getE A a b := by
  unfold getE
  rw [setE_getD_ne _ _ _ _ _ h]

theorem getE_setE_same_row (A : Mat) (i j : Nat) (x : JSNum) (b : Nat) (hi : i < A.length) :
    getE (setE A i j x) i b =
      if j = b then (if j < (A.getD i []).length then x else getE A i b) else getE A i b := by
  unfold getE
  rw [setE_getD_same _ _ _ _ hi]
  by_cases hjb : j = b
  · subst hjb
    by_cases hjl : j < (A.getD i []).length
    · rw [if_pos rfl, if_pos hjl, getD_set_self' _ _ _ hjl]
    · rw [if_pos rfl, if_neg hjl, List.set_eq_of_length_le (Nat.le_of_not_lt hjl)]
  · rw [if_neg hjb, getD_set_ne' _ _ _ _ hjb]

namespace CircuitSolver

/-- The diagonal `G_MIN` loop of line 185, as iterated by
`groundNormalize`. -/
def diagAdd (pc : Nat) (A : Mat) : Mat :=
  (List.range pc).foldl (fun A i => setE A i i (JSNum.add (getE A i i) G_MIN)) A

theorem groundNormalize_eq_diagAdd (pc : Nat) (A : Mat) (B : Vec) :
    groundNormalize pc A B =
      ((diagAdd pc A).set 0 ((((diagAdd pc A).getD 0 []).map (fun _ => JSNum.fin 0)).set 0 (.fin 1)),
       B.set 0 (.fin 0)) := rfl

theorem diagAdd_succ (pc : Nat) (A : Mat) :
    diagAdd (pc + 1) A =
      setE (diagAdd pc A) pc pc (JSNum.add (getE (diagAdd pc A) pc pc) G_MIN) := by
  unfold diagAdd
  rw [List.range_succ, List.foldl_append, List.foldl_cons, List.foldl_nil]

theorem diagAdd_length (pc : Nat) (A : Mat) : (diagAdd pc A).length = A.length := by
  induction pc with
  | zero => rfl
  | succ n ih => rw [diagAdd_succ, setE_length, ih]

theorem diagAdd_row_length (pc : Nat) (A : Mat) (i : Nat) :
    ((diagAdd pc A).getD i []).length = (A.getD i []).length := by
  induction pc with
  | zero => rfl
  | succ m ih =>
      rw [diagAdd_succ]
      by_cases him : i = m
      · subst him
        by_cases hil : i < (diagAdd i A).length
        · rw [setE_getD_same _ _ _ _ hil, List.length_set, ih]
        · rw [setE_oob _ _ _ _ (Nat.le_of_not_lt hil), ih]
      · rw [setE_getD_ne _ _ _ _ _ him, ih]

theorem diagAdd_getE (pc : Nat) (A : Mat) (a b : Nat) (hab : ¬(a = b ∧ a < pc)) :
    getE (diagAdd pc A) a b = getE A a b := by
  induction pc with
  | zero => rfl
  | succ n ih =>
      have hab' : ¬(a = b ∧ a < n) := fun h => hab ⟨h.1, Nat.lt_succ_of_lt h.2⟩
      rw [diagAdd_succ]
      by_cases han : a = n
      · subst han
        have hb : ¬(a = b) := fun h => hab ⟨h, Nat.lt_succ_self a⟩
        by_cases hl : a < (diagAdd a A).length
        · rw [getE_setE_same_row _ _ _ _ _ hl, if_neg hb]
          exact ih hab'
        · rw [setE_oob _ _ _ _ (Nat.le_of_not_lt hl)]
          exact ih hab'
      · rw [getE_setE_ne_row _ _ _ _ _ _ han]
        exact ih hab'

theorem diagAdd_getE_diag (pc : Nat) (A : Mat) (a : Nat) (hapc : a < pc)
    (ha : a < A.length) (hrow : a < (A.getD a []).length) :
    getE (diagAdd pc A) a a = JSNum.add (getE A a a) G_MIN := by
  induction pc with
  | zero => cases hapc
  | succ n ih =>
      rw [diagAdd_succ]
      by_cases han : a = n
      · subst han
        have hl : a < (diagAdd a A).length := by rw [diagAdd_length]; exact ha
        have hrl : a < ((diagAdd a A).getD a []).length := by
          rw [diagAdd_row_length]; exact hrow
        rw [getE_setE_same_row _ _ _ _ _ hl, if_pos rfl, if_pos hrl,
          diagAdd_getE a A a a (fun h => Nat.lt_irrefl a h.2)]
      · have hlt : a < n := by
          rcases Nat.lt_succ_iff_lt_or_eq.mp hapc with h' | h'
          · exact h'
          · exact absurd h' han
        rw [getE_setE_ne_row _ _ _ _ _ _ han]
        exact ih hlt

end CircuitSolver

theorem rows_set_getD (M : Mat) (i : Nat) (r : List JSNum) (h : i < M.length) :
    (M.set i r).getD i [] = r := by
  simp [List.getD_eq_getElem?_getD, List.getElem?_set_self, h]

theorem rows_set_getD_ne (M : Mat) (i : Nat) (r : List JSNum) (a : Nat) (h : a ≠ i) :
    (M.set i r).getD a [] = M.getD a [] := by
  simp [List.getD_eq_getElem?_getD, List.getElem?_set_ne (fun he => h he.symm)]

theorem map_zero_getD (l : List JSNum) (j : Nat) :
    ((l.map (fun _ => JSNum.fin 0)).getD j (.fin 0)) = JSNum.fin 0 := by
  rw [List.getD_eq_getElem?_getD, List.getElem?_map]
  cases l[j]? <;> simp

namespace CircuitSolver

/-- C6 (amended): after stamping, `G_MIN` is added to the diagonal
entries of the first `portCount` rows only — the loop of line 185 runs
over `pList.length`, so the extra voltage-source rows are left
untouched — and then row 0 is forced to the identity row with
`B[0] = 0`; every other entry of `A` and `B` is unchanged. -/
theorem gmin_port_rows_only_amended (portCount : Nat) (A : Mat) (B : Vec)
    (hA : 0 < A.length) (hrow0 : 0 < (A.getD 0 []).length) (hB : 0 < B.length) :
    (∀ j, getE (groundNormalize portCount A B).1 0 j =
        if j = 0 then JSNum.fin 1 else JSNum.fin 0) ∧
    (∀ i, i ≠ 0 → i < portCount → i < A.length → i < (A.getD i []).length →
        getE (groundNormalize portCount A B).1 i i = JSNum.add (getE A i i) G_MIN) ∧
    (∀ i j, i ≠ 0 → ¬(i = j ∧ i < portCount) →
        getE (groundNormalize portCount A B).1 i j = getE A i j) ∧
    getV (groundNormalize portCount A B).2 0 = JSNum.fin 0 ∧
    (∀ i, i ≠ 0 → getV (groundNormalize portCount A B).2 i = getV B i) := by
  rw [groundNormalize_eq_diagAdd]
  have hlen : 0 < (diagAdd portCount A).length := by rw [diagAdd_length]; exact hA
  refine ⟨?_, ?_, ?_, ?_, ?_⟩
  · intro j
    show getE ((diagAdd portCount A).set 0 _) 0 j = _
    unfold getE
    rw [rows_set_getD _ _ _ hlen]
    by_cases hj : j = 0
    · subst hj
      rw [if_pos rfl]
      have hml : 0 < (((diagAdd portCount A).getD 0 []).map (fun _ => JSNum.fin 0)).length := by
        rw [List.length_map, diagAdd_row_length]
        exact hrow0
      exact getD_set_self' _ _ _ hml
    · rw [if_neg hj, getD_set_ne' _ _ _ _ (fun he => hj he.symm), map_zero_getD]
  · intro i hi hpc hiA hirow
    show getE ((diagAdd portCount A).set 0 _) i i = _
    unfold getE
    rw [rows_set_getD_ne _ _ _ _ hi]
    exact diagAdd_getE_diag portCount A i hpc hiA hirow
  · intro i j hi hij
    show getE ((diagAdd portCount A).set 0 _) i j = _
    unfold getE
    rw [rows_set_getD_ne _ _ _ _ hi]
    exact diagAdd_getE portCount A i j hij
  · exact getV_set_self _ _ _ hB
  · intro i hi
    exact getV_set_ne _ _ _ _ (fun he => hi he.symm)

/-- Witness for the amended C6 on a concrete 3-by-3 system with
`portCount = 2`: the port-row diagonal gains `G_MIN`, the source-row
diagonal entry `(2,2)` stays exactly as stamped. -/
theorem gmin_port_rows_only_amended_witness :
    getE (groundNormalize 2 [[JSNum.fin 1, JSNum.fin 0, JSNum.fin 0],
        [JSNum.fin 0, JSNum.fin 2, JSNum.fin 0],
        [JSNum.fin 0, JSNum.fin 0, JSNum.fin 3]] [JSNum.fin 0, JSNum.fin 0, JSNum.fin 0]).1 1 1 =
      JSNum.add (JSNum.fin 2) G_MIN ∧
    getE (groundNormalize 2 [[JSNum.fin 1, JSNum.fin 0, JSNum.fin 0],
        [JSNum.fin 0, JSNum.fin 2, JSNum.fin 0],
        [JSNum.fin 0, JSNum.fin 0, JSNum.fin 3]] [JSNum.fin 0, JSNum.fin 0, JSNum.fin 0]).1 2 2 =
      JSNum.fin 3 :=
  ⟨(gmin_port_rows_only_amended 2 _ _ (by decide) (by decide) (by decide)).2.1 1
      (by decide) (by decide) (by decide) (by decide),
   (gmin_port_rows_only_amended 2 _ _ (by decide) (by decide) (by decide)).2.2.1 2 2
      (by decide) (by decide)⟩

/-- A 9-volt battery component. -/
def batteryNine : ComponentModel :=
  { id := "B", type := ComponentType.battery,
    props := { voltage := some (.fin 9) }, simData := {} }

/-- Counterexample for C6: for the one-battery circuit, the diagonal
entry of the extra voltage-source row (index 2) is still exactly `0`
after the ground normalization of lines 184-186; had `G_MIN` been added
to every diagonal entry, it would be `0 + G_MIN ≠ 0`. -/
theorem gmin_counterexample :
    getE (assembleIteration [batteryNine] [batteryNine] (portList [batteryNine])
        (.fin 1) (.fin 0) zeroOracle 0 (List.replicate 3 (.fin 0)) []).1 2 2 = JSNum.fin 0 ∧
    JSNum.fin 0 ≠ JSNum.add (JSNum.fin 0) G_MIN :=
  ⟨by decide, by decide⟩

end CircuitSolver

namespace CircuitSolver

/-- The unknown-vector size `size = pList.length + voltageSources.length`
computed by `solve`. -/
def systemSize (components : List ComponentModel) : Nat :=
  (portList components).length + (components.filter isVoltageSource).length

theorem solveLinearMatrix_length (A : Mat) (B : Vec) :
    (solveLinearMatrix A B).length = B.length := by
  rw [solveLinearMatrix_eq_backsub, foldl_backStep_length, List.length_replicate]

theorem stampVoltageSource_B_length (u v : Nat) (volt : JSNum) (idx : Nat) (A : Mat) (B : Vec) :
    ((stampVoltageSource u v volt idx A B).2).length = B.length := by
  unfold stampVoltageSource
  simp [List.length_set]

theorem stampComponent_B_length (vs : List ComponentModel) (pl : List PortKey)
    (dt simTime : JSNum) (oracle : MathOracle) (iter : Nat) (sol : Vec)
    (AB : Mat × Vec) (c : ComponentModel) :
    ((stampComponent vs pl dt simTime oracle iter sol AB c).2).length = AB.2.length := by
  obtain ⟨cid, cty, cprops, csd⟩ := c
  cases cty <;>
    (simp only [stampComponent]; split_ifs <;>
      simp [stampVoltageSource, List.length_set])

theorem stampFold_B_length (vs : List ComponentModel) (pl : List PortKey)
    (dt simTime : JSNum) (oracle : MathOracle) (iter : Nat) (sol : Vec) :
    ∀ (comps : List ComponentModel) (AB : Mat × Vec),
      ((comps.foldl (stampComponent vs pl dt simTime oracle iter sol) AB).2).length =
        AB.2.length
  | [], _ => rfl
  | c :: cs, AB => by
      rw [List.foldl_cons, stampFold_B_length vs pl dt simTime oracle iter sol cs,
        stampComponent_B_length]

theorem assembleIteration_B_length (components vs : List ComponentModel)
    (pl : List PortKey) (dt simTime : JSNum) (oracle : MathOracle) (iter : Nat)
    (sol : Vec) (wires : List WireModel) :
    (assembleIteration components vs pl dt simTime oracle iter sol wires).2.1.length =
      pl.length + vs.length := by
  unfold assembleIteration
  simp only [groundNormalize_eq_diagAdd]
  rw [List.length_set, stampFold_B_length, List.length_replicate]

theorem solveLoop_sol_length (components vs : List ComponentModel) (pl : List PortKey)
    (dt simTime : JSNum) (oracle : MathOracle) :
    ∀ (fuel iter : Nat) (sol : Vec) (wires : List WireModel) (sol' : Vec),
      sol.length = pl.length + vs.length →
      (solveLoop components vs pl dt simTime oracle fuel iter sol wires).1 = some sol' →
      sol'.length = pl.length + vs.length := by
  intro fuel
  induction fuel with
  | zero =>
      intro iter sol wires sol' hlen h
      rw [solveLoop] at h
      cases Option.some.inj h
      exact hlen
  | succ n ih =>
      intro iter sol wires sol' hlen h
      rw [solveLoop] at h
      split at h
      · simp at h
      · refine ih _ _ _ _ ?_ h
        rw [solveLinearMatrix_length, assembleIteration_B_length]

theorem portList_go_length :
    ∀ (comps : List ComponentModel) (acc : List PortKey),
      (comps.map (fun c => c.id)).Nodup →
      (∀ c ∈ comps, ∀ p : Nat, (c.id, p) ∉ acc) →
      (comps.foldl
        (fun acc c =>
          let acc := if (c.id, 0) ∈ acc then acc else acc ++ [(c.id, 0)]
          if c.type = ComponentType.junction then acc
          else if (c.id, 1) ∈ acc then acc else acc ++ [(c.id, 1)]) acc).length =
      acc.length + (comps.countP (fun c => decide (c.type = ComponentType.junction))) +
        2 * (comps.countP (fun c => !decide (c.type = ComponentType.junction)))
  | [], acc, _, _ => by simp
  | c :: cs, acc, hnd, hacc => by
      rw [List.foldl_cons]
      have h0 : (c.id, 0) ∉ acc := hacc c (List.mem_cons_self c cs) 0
      have hid : c.id ∉ cs.map (fun c => c.id) := (List.nodup_cons.mp (by simpa using hnd)).1
      have hnd' : (cs.map (fun c => c.id)).Nodup := (List.nodup_cons.mp (by simpa using hnd)).2
      have hacc1 : ∀ c' ∈ cs, ∀ p : Nat, (c'.id, p) ∉ acc ++ [(c.id, 0)] := by
        intro c' hc' p hmem
        rcases List.mem_append.mp hmem with hm | hm
        · exact hacc c' (List.mem_cons_of_mem c hc') p hm
        · have : c'.id = c.id := congrArg Prod.fst (List.mem_singleton.mp hm)
          exact hid (this ▸ List.mem_map_of_mem (fun c => c.id) hc')
      simp only [if_neg h0]
      by_cases hj : c.type = ComponentType.junction
      · rw [if_pos hj]
        rw [portList_go_length cs (acc ++ [(c.id, 0)]) hnd' hacc1]
        simp [List.countP_cons, hj]
        omega
      · rw [if_neg hj]
        have h1 : (c.id, 1) ∉ acc ++ [(c.id, 0)] := by
          intro hmem
          rcases List.mem_append.mp hmem with hm | hm
          · exact hacc c (List.mem_cons_self c cs) 1 hm
          · exact Nat.one_ne_zero (congrArg Prod.snd (List.mem_singleton.mp hm))
        rw [if_neg h1]
        have hacc2 : ∀ c' ∈ cs, ∀ p : Nat, (c'.id, p) ∉ (acc ++ [(c.id, 0)]) ++ [(c.id, 1)] := by
          intro c' hc' p hmem
          rcases List.mem_append.mp hmem with hm | hm
          · exact hacc1 c' hc' p hm
          · have : c'.id = c.id := congrArg Prod.fst (List.mem_singleton.mp hm)
            exact hid (this ▸ List.mem_map_of_mem (fun c => c.id) hc')
        rw [portList_go_length cs ((acc ++ [(c.id, 0)]) ++ [(c.id, 1)]) hnd' hacc2]
        simp [List.countP_cons, hj]
        omega

/-- C8: for components with pairwise-distinct ids, the dimension of the
linear system equals ports plus ideal voltage sources, where a Junction
contributes exactly 1 port, every other component contributes exactly
2 ports, and each Battery or ACSource contributes one extra unknown;
moreover the solution vector returned by the iteration loop has exactly
this length. -/
theorem system_size_invariant (components : List ComponentModel) (wires : List WireModel)
    (dt simTime : JSNum) (oracle : MathOracle)
    (hids : (components.map (fun c => c.id)).Nodup) :
    systemSize components =
      ((components.countP (fun c => decide (c.type = ComponentType.junction))) +
        2 * (components.countP (fun c => !decide (c.type = ComponentType.junction)))) +
      (components.filter isVoltageSource).length ∧
    ∀ sol, (solveLoop components (components.filter isVoltageSource) (portList components)
        dt simTime oracle MAX_ITERATIONS 0
        (List.replicate (systemSize components) (.fin 0)) wires).1 = some sol →
      sol.length = systemSize components := by
  have hport : (portList components).length =
      (components.countP (fun c => decide (c.type = ComponentType.junction))) +
        2 * (components.countP (fun c => !decide (c.type = ComponentType.junction))) := by
    have := portList_go_length components [] hids (by intro _ _ _ h; cases h)
    simpa [portList] using this
  constructor
  · rw [systemSize, hport]
  · intro sol h
    exact solveLoop_sol_length components (components.filter isVoltageSource)
      (portList components) dt simTime oracle MAX_ITERATIONS 0 _ wires sol
      (by rw [List.length_replicate]; rfl) h

/-- Witness for C8 at the battery-plus-junction input: 2 + 1 ports, one
source row, and the returned solution vector has length 4. -/
theorem system_size_invariant_witness :
    systemSize [batteryNine, junctionOnly] = 4 ∧
    ∀ sol, (solveLoop [batteryNine, junctionOnly]
        ([batteryNine, junctionOnly].filter isVoltageSource)
        (portList [batteryNine, junctionOnly]) (.fin 1) (.fin 0) zeroOracle MAX_ITERATIONS 0
        (List.replicate (systemSize [batteryNine, junctionOnly]) (.fin 0)) []).1 = some sol →
      sol.length = 4 :=
  ⟨by decide,
   fun sol h => (system_size_invariant [batteryNine, junctionOnly] [] (.fin 1) (.fin 0)
      zeroOracle (by decide)).2 sol h⟩

end CircuitSolver

namespace CircuitSolver

/-- A 1 kΩ resistor component. -/
def resistorK : ComponentModel :=
  { id := "R", type := ComponentType.resistor,
    props := { resistance := some (.fin 1000) }, simData := {} }

/-- A wire joining the two ports of `resistorK`. -/
def selfWire : WireModel :=
  { compAId := "R", portAIndex := 0, compBId := "R", portBIndex := 1, simData := {} }

/-- C9: on a successful (non-diverged) tick, the committed arrays are
the mapped state updates, every non-Junction component's displayed
current is `current * (1 - α) + newCurrent * α` with `α = 0.5` (where
`newCurrent` is the component's analytic branch current at the solved
voltage), and every wire whose endpoints resolve gets the same formula
with `α = 0.2`. -/
theorem current_smoothing (components : List ComponentModel) (wires : List WireModel)
    (dt simTime : JSNum) (oracle : MathOracle) (sol : Vec)
    (h : (solveLoop components (components.filter isVoltageSource) (portList components)
        dt simTime oracle MAX_ITERATIONS 0
        (List.replicate ((portList components).length +
          (components.filter isVoltageSource).length) (.fin 0)) wires).1 = some sol) :
    ((solve components wires dt simTime oracle).1 =
      components.map (updateComponent (components.filter isVoltageSource)
        (portList components) dt oracle sol)) ∧
    (∀ c : ComponentModel, c.type ≠ ComponentType.junction →
      (updateComponent (components.filter isVoltageSource) (portList components)
          dt oracle sol c).simData.current =
        JSNum.add
          (JSNum.mul c.simData.current (JSNum.sub (.fin 1) (.fin (1 / 2))))
          (JSNum.mul
            (componentNewCurrent (components.filter isVoltageSource)
              (portList components).length dt sol c
              (JSNum.sub (getV sol ((pIndex (portList components) (c.id, 0)).getD 0))
                (getV sol ((pIndex (portList components) (c.id, 1)).getD 0))))
            (.fin (1 / 2)))) ∧
    (∀ (w : WireModel) (u v : Nat),
      pIndex (portList components) (w.compAId, w.portAIndex) = some u →
      pIndex (portList components) (w.compBId, w.portBIndex) = some v →
      (updateWire (portList components) sol w).simData.current =
        JSNum.add
          (JSNum.mul w.simData.current (JSNum.sub (.fin 1) (.fin (1 / 5))))
          (JSNum.mul
            (JSNum.div (JSNum.sub (getV sol u) (getV sol v))
              (orDefault w.simData.resistance (.fin (1 / 10 ^ 4))))
            (.fin (1 / 5)))) ∧
    ((solve components wires dt simTime oracle).2 =
      ((solveLoop components (components.filter isVoltageSource) (portList components)
        dt simTime oracle MAX_ITERATIONS 0
        (List.replicate ((portList components).length +
          (components.filter isVoltageSource).length) (.fin 0)) wires).2).map
        (updateWire (portList components) sol)) := by
  rcases hsl : solveLoop components (components.filter isVoltageSource)
      (portList components) dt simTime oracle MAX_ITERATIONS 0
      (List.replicate ((portList components).length +
        (components.filter isVoltageSource).length) (.fin 0)) wires with ⟨osol, w2⟩
  rw [hsl] at h
  simp only at h
  subst h
  refine ⟨?_, ?_, ?_, ?_⟩
  · simp only [solve, hsl]
  · intro c hc
    obtain ⟨cid, cty, cprops, csd⟩ := c
    cases cty <;> first
      | exact absurd rfl hc
      | rfl
  · intro w u v hu hv
    simp only [updateWire, hu, hv]
  · simp only [solve, hsl]

/-- Witness for C9 on the concrete resistor-with-wire circuit. -/
theorem current_smoothing_witness :
    ((updateComponent ([resistorK].filter isVoltageSource) (portList [resistorK])
        (.fin 1) zeroOracle
        (((solveLoop [resistorK] ([resistorK].filter isVoltageSource)
          (portList [resistorK]) (.fin 1) (.fin 0) zeroOracle MAX_ITERATIONS 0
          (List.replicate ((portList [resistorK]).length +
            ([resistorK].filter isVoltageSource).length) (.fin 0)) [selfWire]).1).getD [])
        resistorK).simData.current =
      JSNum.add
        (JSNum.mul resistorK.simData.current (JSNum.sub (.fin 1) (.fin (1 / 2))))
        (JSNum.mul
          (componentNewCurrent ([resistorK].filter isVoltageSource)
            (portList [resistorK]).length (.fin 1)
            (((solveLoop [resistorK] ([resistorK].filter isVoltageSource)
              (portList [resistorK]) (.fin 1) (.fin 0) zeroOracle MAX_ITERATIONS 0
              (List.replicate ((portList [resistorK]).length +
                ([resistorK].filter isVoltageSource).length) (.fin 0)) [selfWire]).1).getD [])
            resistorK
            (JSNum.sub
              (getV (((solveLoop [resistorK] ([resistorK].filter isVoltageSource)
                (portList [resistorK]) (.fin 1) (.fin 0) zeroOracle MAX_ITERATIONS 0
                (List.replicate ((portList [resistorK]).length +
                  ([resistorK].filter isVoltageSource).length) (.fin 0)) [selfWire]).1).getD [])
                ((pIndex (portList [resistorK]) (resistorK.id, 0)).getD 0))
              (getV (((solveLoop [resistorK] ([resistorK].filter isVoltageSource)
                (portList [resistorK]) (.fin 1) (.fin 0) zeroOracle MAX_ITERATIONS 0
                (List.replicate ((portList [resistorK]).length +
                  ([resistorK].filter isVoltageSource).length) (.fin 0)) [selfWire]).1).getD [])
                ((pIndex (portList [resistorK]) (resistorK.id, 1)).getD 0))))
          (.fin (1 / 2)))) :=
  (current_smoothing [resistorK] [selfWire] (.fin 1) (.fin 0) zeroOracle
    (((solveLoop [resistorK] ([resistorK].filter isVoltageSource)
      (portList [resistorK]) (.fin 1) (.fin 0) zeroOracle MAX_ITERATIONS 0
      (List.replicate ((portList [resistorK]).length +
        ([resistorK].filter isVoltageSource).length) (.fin 0)) [selfWire]).1).getD [])
    (by decide)).2.1 resistorK (by decide)

end CircuitSolver

namespace CircuitSolver

/-- Normalization of one optional parameter: the value the `||` default
would produce, stored explicitly. -/
def normProp (o : Option JSNum) (d : JSNum) : Option JSNum := some (orDefault o d)

/-- A component with the six defaultable numeric parameters replaced by
their explicit `||` defaults: resistance 1000 Ω, Battery voltage 9 V,
capacitance 10 (in the selected unit), inductance 0.1 H, AC amplitude
10 V, AC frequency 60 Hz. -/
def normalizeDefaults (c : ComponentModel) : ComponentModel :=
  { c with props := { c.props with
      voltage := normProp c.props.voltage (.fin 9),
      resistance := normProp c.props.resistance (.fin 1000),
      capacitance := normProp c.props.capacitance (.fin 10),
      inductance := normProp c.props.inductance (.fin (1 / 10)),
      amplitude := normProp c.props.amplitude (.fin 10),
      frequency := normProp c.props.frequency (.fin 60) } }

theorem orDefault_normProp (o : Option JSNum) (d : JSNum)
    (hd : (d = JSNum.fin 0 ∨ d.isNaN = true) → False) :
    orDefault (normProp o d) d = orDefault o d := by
  cases o with
  | none =>
      simp only [normProp, orDefault]
      split
      · next hcond => exact absurd (by simpa using hcond) hd
      · rfl
  | some y =>
      simp only [normProp, orDefault]
      by_cases hy : (y = JSNum.fin 0 || y.isNaN) = true
      · rw [if_pos hy]
        split
        · next hcond => exact absurd (by simpa using hcond) hd
        · rfl
      · rw [if_neg hy, if_neg hy]

theorem orDefault_normProp9 (o : Option JSNum) :
    orDefault (normProp o (.fin 9)) (.fin 9) = orDefault o (.fin 9) :=
  orDefault_normProp o _ (by decide)

theorem orDefault_normProp1000 (o : Option JSNum) :
    orDefault (normProp o (.fin 1000)) (.fin 1000) = orDefault o (.fin 1000) :=
  orDefault_normProp o _ (by decide)

theorem orDefault_normProp10 (o : Option JSNum) :
    orDefault (normProp o (.fin 10)) (.fin 10) = orDefault o (.fin 10) :=
  orDefault_normProp o _ (by decide)

theorem orDefault_normProp_tenth (o : Option JSNum) :
    orDefault (normProp o (.fin (1 / 10))) (.fin (1 / 10)) = orDefault o (.fin (1 / 10)) :=
  orDefault_normProp o _ (by decide)

theorem orDefault_normProp60 (o : Option JSNum) :
    orDefault (normProp o (.fin 60)) (.fin 60) = orDefault o (.fin 60) :=
  orDefault_normProp o _ (by decide)

theorem portList_map_norm (components : List ComponentModel) :
    portList (components.map normalizeDefaults) = portList components := by
  unfold portList
  rw [List.foldl_map]
  rfl

theorem findIdx_map_norm (vs : List ComponentModel) (i : String) :
    (vs.map normalizeDefaults).findIdx? (fun b => decide (b.id = i)) =
      vs.findIdx? (fun b => decide (b.id = i)) := by
  rw [List.findIdx?_map]
  rfl

theorem stampComponent_norm (vs : List ComponentModel) (pl : List PortKey)
    (dt simTime : JSNum) (oracle : MathOracle) (iter : Nat) (sol : Vec)
    (AB : Mat × Vec) (c : ComponentModel) :
    stampComponent (vs.map normalizeDefaults) pl dt simTime oracle iter sol AB
      (normalizeDefaults c) =
    stampComponent vs pl dt simTime oracle iter sol AB c := by
  obtain ⟨cid, cty, cprops, csd⟩ := c
  cases cty <;>
    simp only [stampComponent, normalizeDefaults, diodeVfwd, findIdx_map_norm,
      orDefault_normProp9, orDefault_normProp1000, orDefault_normProp10,
      orDefault_normProp_tenth, orDefault_normProp60, List.length_map]

theorem stampFold_norm (vs : List ComponentModel) (pl : List PortKey)
    (dt simTime : JSNum) (oracle : MathOracle) (iter : Nat) (sol : Vec) :
    ∀ (comps : List ComponentModel) (AB : Mat × Vec),
      ((comps.map normalizeDefaults).foldl
        (stampComponent (vs.map normalizeDefaults) pl dt simTime oracle iter sol) AB) =
      (comps.foldl (stampComponent vs pl dt simTime oracle iter sol) AB)
  | [], _ => rfl
  | c :: cs, AB => by
      rw [List.map_cons, List.foldl_cons, List.foldl_cons, stampComponent_norm,
        stampFold_norm vs pl dt simTime oracle iter sol cs]

theorem assembleIteration_norm (components vs : List ComponentModel)
    (pl : List PortKey) (dt simTime : JSNum) (oracle : MathOracle) (iter : Nat)
    (sol : Vec) (wires : List WireModel) :
    assembleIteration (components.map normalizeDefaults) (vs.map normalizeDefaults)
      pl dt simTime oracle iter sol wires =
    assembleIteration components vs pl dt simTime oracle iter sol wires := by
  simp only [assembleIteration, List.length_map, stampFold_norm]

theorem solveLoop_norm (components vs : List ComponentModel) (pl : List PortKey)
    (dt simTime : JSNum) (oracle : MathOracle) :
    ∀ (fuel iter : Nat) (sol : Vec) (wires : List WireModel),
      solveLoop (components.map normalizeDefaults) (vs.map normalizeDefaults)
        pl dt simTime oracle fuel iter sol wires =
      solveLoop components vs pl dt simTime oracle fuel iter sol wires
  | 0, _, _, _ => rfl
  | fuel + 1, iter, sol, wires => by
      rw [solveLoop, solveLoop, assembleIteration_norm]
      split
      · rfl
      · exact solveLoop_norm components vs pl dt simTime oracle fuel (iter + 1) _ _

theorem componentNewCurrent_norm (vs : List ComponentModel) (plLen : Nat)
    (dt : JSNum) (sol : Vec) (c : ComponentModel) (newVoltage : JSNum) :
    componentNewCurrent (vs.map normalizeDefaults) plLen dt sol
      (normalizeDefaults c) newVoltage =
    componentNewCurrent vs plLen dt sol c newVoltage := by
  obtain ⟨cid, cty, cprops, csd⟩ := c
  cases cty <;>
    simp only [componentNewCurrent, normalizeDefaults, diodeVfwd, findIdx_map_norm,
      orDefault_normProp9, orDefault_normProp1000, orDefault_normProp10,
      orDefault_normProp_tenth, orDefault_normProp60]

theorem updateComponent_norm (vs : List ComponentModel) (pl : List PortKey)
    (dt : JSNum) (oracle : MathOracle) (sol : Vec) (c : ComponentModel) :
    updateComponent (vs.map normalizeDefaults) pl dt oracle sol (normalizeDefaults c) =
      normalizeDefaults (updateComponent vs pl dt oracle sol c) := by
  obtain ⟨cid, cty, cprops, csd⟩ := c
  cases cty <;>
    (try simp only [updateComponent, normalizeDefaults, componentNewCurrent, diodeVfwd,
      findIdx_map_norm, orDefault_normProp9, orDefault_normProp1000, orDefault_normProp10,
      orDefault_normProp_tenth, orDefault_normProp60]) <;>
    rfl

/-- C10: `solve` substitutes the kind-specific nonzero `||` defaults
for every numeric parameter that is missing or exactly 0 (or NaN, also
falsy): solving a circuit is identical to solving the circuit whose
parameters have been replaced by their defaulted values — the telemetry
agrees entry for entry, only the explicit parameter values differ. In
particular a Battery explicitly set to 0 V is solved exactly as a 9 V
source. -/
theorem default_parameters (components : List ComponentModel) (wires : List WireModel)
    (dt simTime : JSNum) (oracle : MathOracle) :
    solve (components.map normalizeDefaults) wires dt simTime oracle =
      ((solve components wires dt simTime oracle).1.map normalizeDefaults,
       (solve components wires dt simTime oracle).2) := by
  simp only [solve]
  have hfilter : (components.map normalizeDefaults).filter isVoltageSource =
      (components.filter isVoltageSource).map normalizeDefaults := by
    rw [List.filter_map]
    rfl
  rw [hfilter, portList_map_norm, List.length_map, solveLoop_norm]
  rcases hsl : solveLoop components (components.filter isVoltageSource)
      (portList components) dt simTime oracle MAX_ITERATIONS 0
      (List.replicate ((portList components).length +
        (components.filter isVoltageSource).length) (.fin 0)) wires with ⟨osol, w2⟩
  cases osol with
  | none => rfl
  | some s =>
      simp only [List.map_map]
      congr 1
      apply List.map_congr_left
      intro c _
      exact updateComponent_norm (components.filter isVoltageSource)
        (portList components) dt oracle s c

end CircuitSolver
